import Mathlib

/-!
A shallow embedding of `src/platforms/hackerone.py` (class `HackerOneAPI`)
and proofs about its pagination and reshaping contract.

JSON values are modelled by `JValue`; Python truthiness, `dict.get`,
iteration and `==`-against-a-string-literal are modelled by `truthy`,
`py_get`, `py_iter` and `py_str_eq`.  A computation that can raise a
Python exception is an `Except String` value, the string naming the
exception.  The HTTP session is modelled as an oracle (`Server`) mapping
(call index, absolute url, query params) to either an error (any raised
exception: non-2xx status after `raise_for_status`, transport failure)
or a parsed JSON body; the call index stands for the state of the
network, letting one oracle describe an arbitrary sequence of responses.
-/

/-- JSON values as produced by `resp.json()`. -/
inductive JValue where
  | null : JValue
  | bool : Bool → JValue
  | num : Int → JValue
  | str : String → JValue
  | arr : List JValue → JValue
  | obj : List (String × JValue) → JValue

/-- Python truthiness (`if x:`) on JSON values: `None`, `False`, `0`,
the empty string, the empty list and the empty dict are falsy. -/
def truthy : JValue → Bool
  | .null => false
  | .bool b => b
  | .num n => n != 0
  | .str s => s != ""
  | .arr xs => !xs.isEmpty
  | .obj fs => !fs.isEmpty

/-- Lookup in a JSON object with a default: the semantics of
`d.get(key, default)` on an actual dict. -/
def lookupD (fs : List (String × JValue)) (k : String) (d : JValue) : JValue :=
  (List.lookup k fs).getD d

/-- `v.get(k, d)`: returns the entry (or the default) when `v` is a dict,
raises `AttributeError` otherwise. -/
def py_get (v : JValue) (k : String) (d : JValue) : Except String JValue :=
  match v with
  | .obj fs => .ok (lookupD fs k d)
  | _ => .error "AttributeError"

/-- `v` is a Python dict (`isinstance(v, dict)`). -/
def isObj : JValue → Bool
  | .obj _ => true
  | _ => false

/-- Python iteration (`for x in v`): lists yield their elements, strings
their one-character substrings, dicts their keys; other values raise
`TypeError`. -/
def py_iter : JValue → Except String (List JValue)
  | .arr xs => .ok xs
  | .str s => .ok (s.toList.map fun c => .str c.toString)
  | .obj fs => .ok (fs.map fun p => .str p.1)
  | _ => .error "TypeError"

/-- `v == lit` for a string literal `lit`: true exactly when `v` is that
string (JSON values of other types never compare equal to a string). -/
def py_str_eq (v : JValue) (s : String) : Bool :=
  match v with
  | .str t => t == s
  | _ => false

/-- `s.startswith(pre)`, modelled on the character sequences. -/
def startswith (s pre : String) : Bool :=
  List.isPrefixOf pre.data s.data

/-- `HackerOneAPI.__init__` sets `base_url="https://api.hackerone.com"`. -/
def base_url : String := "https://api.hackerone.com"

/-- `HackerOneAPI._build_url`: absolute URLs pass through unchanged;
otherwise the base url is prepended, accepting both the leading-slash
and the slash-less form of a relative path. -/
def build_url (base endpoint : String) : String :=
  if startswith endpoint "http://" || startswith endpoint "https://" then
    endpoint
  else if startswith endpoint "/" then
    base ++ endpoint
  else
    base ++ "/" ++ endpoint

/-- Query parameters of a request (`params` dict or `None`). -/
abbrev Params := List (String × JValue)

/-- The network oracle: call index (1-based), absolute URL and query
parameters determine the outcome of `session.get` + `raise_for_status`
+ `resp.json()`. -/
abbrev Server := Nat → String → Option Params → Except String JValue

/-- One issued request, as observed by the session: the endpoint value
handed to `get` and the params passed along with it. -/
structure Request where
  url : JValue
  params : Option Params

/-- `HackerOneAPI.get`: build the full URL (raising `AttributeError` when
the endpoint is not a string, as `startswith` would) and consult the
session. -/
def api_get (server : Server) (idx : Nat) (endpoint : JValue)
    (params : Option Params) : Except String JValue :=
  match endpoint with
  | .str s => server idx (build_url base_url s) params
  | _ => .error "AttributeError"

/-- `response_json.get("links", \x7b\x7d).get("next")`: the next-link
extraction performed by `paginate` outside its try/except block. -/
def extract_next (response_json : JValue) : Except String JValue := do
  let links ← py_get response_json "links" (.obj [])
  py_get links "next" .null

/-- The default first-request params of `paginate`. -/
def default_params : Params := [("page[size]", JValue.num 100)]

/-- `params or \x7b"page[size]": 100\x7d`: `None` and the empty dict are
falsy, so both are replaced by the default page-size hint. -/
def effective_params (params : Option Params) : Option Params :=
  match params with
  | none => some default_params
  | some p => if p.isEmpty then some default_params else some p

/-- The `while next_url:` loop of `HackerOneAPI.paginate`.  `budget`
counts the iterations still allowed before the safety cap: the source
breaks after appending page `page_count+1` when `page_count+1 >=
max_pages`, which is exactly `budget = 0` for `budget = (max_pages -
page_count - 1).toNat`; the recursive call decrements it.  The first
component is the trace of issued requests (in order), the second either
the collected pages (in fetch order) or the exception propagated out of
the next-link extraction. -/
def paginateLoop (server : Server) (next_url : JValue)
    (current_params : Option Params) (page_count : Nat) (budget : Nat)
    (results : List JValue) (log : List Request) :
    List Request × Except String (List JValue) :=
  if truthy next_url then
    let pc := page_count + 1
    let log2 := ⟨next_url, current_params⟩ :: log
    match api_get server pc next_url current_params with
    | .error _ =>
      -- stop pagination on failure (fail-soft: partial results)
      (log2.reverse, .ok results.reverse)
    | .ok response_json =>
      let results2 := response_json :: results
      match budget with
      | 0 =>
        -- safety cap: page_count >= max_pages
        (log2.reverse, .ok results2.reverse)
      | b + 1 =>
        match extract_next response_json with
        | .error e => (log2.reverse, .error e)
        | .ok next_link =>
          if truthy next_link then
            paginateLoop server next_link none pc b results2 log2
          else
            (log2.reverse, .ok results2.reverse)
  else
    (log.reverse, .ok results.reverse)

/-- `HackerOneAPI.paginate`. -/
def paginate (server : Server) (endpoint : String)
    (params : Option Params := none) (max_pages : Int := 500) :
    List Request × Except String (List JValue) :=
  paginateLoop server (.str endpoint) (effective_params params) 0
    (max_pages - 1).toNat [] []

/-- The `data.extend(structured_scope["data"])` accumulation loop of
`program_info`: pages that are not dicts or lack a `"data"` key are
skipped; `extend` iterates whatever the `"data"` value is. -/
def extend_data (pages : List JValue) (acc : List JValue) :
    Except String (List JValue) :=
  match pages with
  | [] => .ok acc
  | p :: rest =>
    match p with
    | .obj fs =>
      match List.lookup "data" fs with
      | some d => do
        let items ← py_iter d
        extend_data rest (acc ++ items)
      | none => extend_data rest acc
    | _ => extend_data rest acc

/-- `HackerOneAPI.program_info`. -/
def program_info (server : Server) (scope : String) :
    Except String JValue := do
  let pages ← (paginate server
    ("/v1/hackers/programs/" ++ scope ++ "/structured_scopes") none 500).2
  let data ← extend_data pages []
  .ok (.obj [("relationships", .obj [("structured_scopes",
    .obj [("data", .arr data)])])])

/-- A Python list comprehension `[body(x) for x in xs if cond(x)]`:
the condition and then the body are evaluated element by element, the
first raised exception aborting the whole comprehension. -/
def comprehend (cond : JValue → Except String Bool)
    (body : JValue → Except String JValue) :
    List JValue → Except String (List JValue)
  | [] => .ok []
  | s :: rest => do
    let c ← cond s
    if c then do
      let b ← body s
      let r ← comprehend cond body rest
      .ok (b :: r)
    else
      comprehend cond body rest

/-- The asset record built for a nested scope in both comprehensions of
`brief`. -/
def asset_entry (scope : JValue) : Except String JValue := do
  let a1 ← py_get scope "attributes" (.obj [])
  let ident ← py_get a1 "asset_identifier" (.str "unknown")
  let a2 ← py_get scope "attributes" (.obj [])
  let ty ← py_get a2 "asset_type" (.str "unknown")
  .ok (.obj [("identifier", ident), ("type", ty)])

/-- The `in_scope` filter: `scope.get("attributes",
\x7b\x7d).get("eligible_for_submission", False)` under truthiness. -/
def eligible_in (scope : JValue) : Except String Bool := do
  let a ← py_get scope "attributes" (.obj [])
  let e ← py_get a "eligible_for_submission" (.bool false)
  .ok (truthy e)

/-- The `out_of_scope` filter: `not scope.get("attributes",
\x7b\x7d).get("eligible_for_submission", True)` under truthiness —
note the `True` default. -/
def eligible_out (scope : JValue) : Except String Bool := do
  let a ← py_get scope "attributes" (.obj [])
  let e ← py_get a "eligible_for_submission" (.bool true)
  .ok (!truthy e)

/-- `result.get("relationships", \x7b\x7d).get("structured_scopes",
\x7b\x7d).get("data", [])`, then Python iteration over it, as both
comprehensions of `brief` do. -/
def scope_data (result : JValue) : Except String (List JValue) := do
  let rel ← py_get result "relationships" (.obj [])
  let ss ← py_get rel "structured_scopes" (.obj [])
  let d ← py_get ss "data" (.arr [])
  py_iter d

/-- The summary record `brief` builds for one dict entry, fields
evaluated in source order. -/
def brief_one (result : JValue) : Except String JValue := do
  let a1 ← py_get result "attributes" (.obj [])
  let handle ← py_get a1 "handle" (.str "unknown")
  let a2 ← py_get result "attributes" (.obj [])
  let ob ← py_get a2 "offers_bounties" (.bool false)
  let bounty := if truthy ob then JValue.num 1 else JValue.num 0
  let a3 ← py_get result "attributes" (.obj [])
  let ss ← py_get a3 "submission_state" .null
  let active := if py_str_eq ss "open" then JValue.num 1 else JValue.num 0
  let d1 ← scope_data result
  let ins ← comprehend eligible_in asset_entry d1
  let d2 ← scope_data result
  let outs ← comprehend eligible_out asset_entry d2
  .ok (.obj [("handle", handle), ("bounty", bounty), ("active", active),
    ("assets", .obj [("in_scope", .arr ins),
      ("out_of_scope", .arr outs)])])

/-- `HackerOneAPI.brief`: one record per dict entry of the input, in
order, non-dict entries silently skipped. -/
def brief (results : List JValue) : Except String (List JValue) :=
  comprehend (fun r => .ok (isObj r)) brief_one results

/-! Specification-side readers and abbreviations used to state the
claims independently of the `.get`-chain mechanics above. -/

/-- A nested scope resource carrying the given attributes dict. -/
def mk_scope (sa : List (String × JValue)) : JValue :=
  .obj [("attributes", .obj sa)]

/-- A program resource whose `relationships.structured_scopes.data`
holds the given nested scopes. -/
def mk_scope_resource (scopes : List (List (String × JValue))) : JValue :=
  .obj [("relationships", .obj [("structured_scopes",
    .obj [("data", .arr (scopes.map mk_scope))])])]

/-- A program resource carrying only an attributes dict. -/
def mk_attrs_resource (attrs : List (String × JValue)) : JValue :=
  .obj [("attributes", .obj attrs)]

/-- The asset record the spec prescribes for a nested scope with the
given attributes. -/
def asset_of_attrs (sa : List (String × JValue)) : JValue :=
  .obj [("identifier", lookupD sa "asset_identifier" (.str "unknown")),
    ("type", lookupD sa "asset_type" (.str "unknown"))]

/-- The nested scope has an `eligible_for_submission` key with a truthy
value. -/
def elig_true (sa : List (String × JValue)) : Bool :=
  match List.lookup "eligible_for_submission" sa with
  | some v => truthy v
  | none => false

/-- The nested scope has an `eligible_for_submission` key with a falsy
value. -/
def elig_false (sa : List (String × JValue)) : Bool :=
  match List.lookup "eligible_for_submission" sa with
  | some v => !truthy v
  | none => false

/-- The nested scope has an `eligible_for_submission` key at all. -/
def has_elig (sa : List (String × JValue)) : Bool :=
  (List.lookup "eligible_for_submission" sa).isSome

/-- Read the `assets.in_scope` / `assets.out_of_scope` list out of a
brief record. -/
def asset_list (b : JValue) (which : String) : List JValue :=
  match b with
  | .obj fs =>
    match List.lookup "assets" fs with
    | some (.obj afs) =>
      match List.lookup which afs with
      | some (.arr xs) => xs
      | _ => []
    | _ => []
  | _ => []

/-- Read the nested scope list of a resource, as the claims count it
(its K entries). -/
def nested_scopes (r : JValue) : List JValue :=
  match r with
  | .obj fs =>
    match List.lookup "relationships" fs with
    | some (.obj rfs) =>
      match List.lookup "structured_scopes" rfs with
      | some (.obj sfs) =>
        match List.lookup "data" sfs with
        | some (.arr xs) => xs
        | _ => []
      | _ => []
    | _ => []
  | _ => []

/-- Spec value of `handle`: `attributes.handle` defaulting to
`"unknown"`. -/
def handle_spec (attrs : List (String × JValue)) : JValue :=
  lookupD attrs "handle" (.str "unknown")

/-- Spec value of `bounty`: 1 exactly when `attributes.offers_bounties`
is present and truthy. -/
def bounty_spec (attrs : List (String × JValue)) : JValue :=
  match List.lookup "offers_bounties" attrs with
  | some v => if truthy v then .num 1 else .num 0
  | none => .num 0

/-- Spec value of `active`: 1 exactly when
`attributes.submission_state` is the string `"open"`. -/
def active_spec (attrs : List (String × JValue)) : JValue :=
  match List.lookup "submission_state" attrs with
  | some (.str t) => if t = "open" then JValue.num 1 else .num 0
  | _ => .num 0

/-- The `data` entries contributed by one page to the `program_info`
aggregate: present only when the page is a dict with a `data` array. -/
def page_data (p : JValue) : List JValue :=
  match p with
  | .obj fs =>
    match List.lookup "data" fs with
    | some (.arr xs) => xs
    | _ => []
  | _ => []

/-- The page's `data` field, when present, is an array (so `extend`
concatenates rather than iterating something else). -/
def page_data_ok (p : JValue) : Prop :=
  match p with
  | .obj fs =>
    match List.lookup "data" fs with
    | some d => ∃ xs, d = JValue.arr xs
    | none => True
  | _ => True

/-! Concrete fixtures for witnesses and counterexamples. -/

/-- A nested scope whose attributes lack `eligible_for_submission`. -/
def cex_scope : JValue := .obj [("attributes", .obj [])]

/-- A resource with exactly one nested scope, that scope lacking the
`eligible_for_submission` key. -/
def cex_resource : JValue :=
  .obj [("relationships", .obj [("structured_scopes",
    .obj [("data", .arr [cex_scope])])])]

/-- First page of the mock two-page sequence of the spec's end-to-end
example. -/
def sample_page1 : JValue := .obj [("data", .arr [.str "R1"]),
  ("links", .obj [("next", .str "/v1/x?page=2")])]

/-- Second (final) page of the mock two-page sequence. -/
def sample_page2 : JValue := .obj [("data", .arr [.str "R2"]),
  ("links", .obj [])]

/-- A server answering the first call with `sample_page1` and every
later call with `sample_page2`. -/
def mock_server : Server := fun i _ _ =>
  if i = 1 then .ok sample_page1 else .ok sample_page2

/-- A server whose first fetch yields `sample_page1` (which carries a
next link) and whose second fetch fails with an HTTP error. -/
def fail_server : Server := fun i _ _ =>
  if i = 1 then .ok sample_page1 else .error "HttpError"

/-- A server that always answers with an empty JSON object (no next
link). -/
def plain_server : Server := fun _ _ _ => .ok (.obj [])

/-- A server that always answers with a JSON array body. -/
def arr_server : Server := fun _ _ _ => .ok (.arr [])

/-- Attributes with a truthy non-boolean `offers_bounties` and an open
submission state. -/
def yes_attrs : List (String × JValue) :=
  [("handle", .str "h1"), ("offers_bounties", .str "yes"),
    ("submission_state", .str "open")]

/-! Helper lemmas. -/

/-- Bind on a successful `Except` computation just applies the
continuation. -/
theorem except_bind_ok {α β : Type} (x : α) (f : α → Except String β) :
    Except.bind (Except.ok x) f = f x := rfl

/-- The in-scope filter on a plain scope resource decides exactly
`elig_true` of its attributes: absence of the key defaults to `False`. -/
theorem eligible_in_mk_scope (sa : List (String × JValue)) :
    eligible_in (mk_scope sa) = .ok (elig_true sa) := by
  show Except.ok (truthy (lookupD sa "eligible_for_submission" (.bool false)))
    = Except.ok (elig_true sa)
  unfold lookupD elig_true
  cases List.lookup "eligible_for_submission" sa <;> simp [truthy]

/-- The out-of-scope filter on a plain scope resource decides exactly
`elig_false` of its attributes: absence of the key defaults to `True`,
so the negation excludes the entry. -/
theorem eligible_out_mk_scope (sa : List (String × JValue)) :
    eligible_out (mk_scope sa) = .ok (elig_false sa) := by
  show Except.ok (!truthy (lookupD sa "eligible_for_submission" (.bool true)))
    = Except.ok (elig_false sa)
  unfold lookupD elig_false
  cases List.lookup "eligible_for_submission" sa <;> simp [truthy]

/-- The asset record built for a plain scope resource. -/
theorem asset_entry_mk_scope (sa : List (String × JValue)) :
    asset_entry (mk_scope sa) = .ok (asset_of_attrs sa) := rfl

/-- The in-scope comprehension over plain scope resources selects the
`elig_true` ones, in order. -/
theorem comprehend_in_spec (scopes : List (List (String × JValue))) :
    comprehend eligible_in asset_entry (scopes.map mk_scope) =
      .ok ((scopes.filter elig_true).map asset_of_attrs) := by
  induction scopes with
  | nil => rfl
  | cons sa rest ih =>
    rw [List.map_cons]
    rw [show comprehend eligible_in asset_entry
          (mk_scope sa :: rest.map mk_scope) =
        Except.bind (eligible_in (mk_scope sa)) (fun c =>
          if c = true then
            Except.bind (asset_entry (mk_scope sa)) (fun b =>
              Except.bind
                (comprehend eligible_in asset_entry (rest.map mk_scope))
                (fun r => Except.ok (b :: r)))
          else comprehend eligible_in asset_entry (rest.map mk_scope))
      from rfl]
    simp only [eligible_in_mk_scope, asset_entry_mk_scope, ih,
      except_bind_ok]
    by_cases h : elig_true sa <;> simp [List.filter_cons, h]

/-- The out-of-scope comprehension over plain scope resources selects
the `elig_false` ones, in order. -/
theorem comprehend_out_spec (scopes : List (List (String × JValue))) :
    comprehend eligible_out asset_entry (scopes.map mk_scope) =
      .ok ((scopes.filter elig_false).map asset_of_attrs) := by
  induction scopes with
  | nil => rfl
  | cons sa rest ih =>
    rw [List.map_cons]
    rw [show comprehend eligible_out asset_entry
          (mk_scope sa :: rest.map mk_scope) =
        Except.bind (eligible_out (mk_scope sa)) (fun c =>
          if c = true then
            Except.bind (asset_entry (mk_scope sa)) (fun b =>
              Except.bind
                (comprehend eligible_out asset_entry (rest.map mk_scope))
                (fun r => Except.ok (b :: r)))
          else comprehend eligible_out asset_entry (rest.map mk_scope))
      from rfl]
    simp only [eligible_out_mk_scope, asset_entry_mk_scope, ih,
      except_bind_ok]
    by_cases h : elig_false sa <;> simp [List.filter_cons, h]

/-- Entries selected by the two filters together are exactly the
entries that carry the `eligible_for_submission` key. -/
theorem elig_count (scopes : List (List (String × JValue))) :
    (scopes.filter elig_true).length + (scopes.filter elig_false).length =
      scopes.countP has_elig := by
  induction scopes with
  | nil => rfl
  | cons sa rest ih =>
    simp only [List.filter_cons, List.countP_cons]
    cases h : List.lookup "eligible_for_submission" sa with
    | none =>
      have e1 : elig_true sa = false := by simp [elig_true, h]
      have e2 : elig_false sa = false := by simp [elig_false, h]
      have e3 : has_elig sa = false := by simp [has_elig, h]
      simp [e1, e2, e3, ih]
    | some v =>
      have e1 : elig_true sa = truthy v := by simp [elig_true, h]
      have e2 : elig_false sa = !truthy v := by simp [elig_false, h]
      have e3 : has_elig sa = true := by simp [has_elig, h]
      cases hv : truthy v <;> simp [e1, e2, e3, hv] <;> omega

/-- Claim C1 (counterexample): for the resource with exactly one nested
scope whose attributes lack `eligible_for_submission`, `brief` puts the
entry in neither list, so `len(in_scope) + len(out_of_scope)` is 0 while
the resource has K = 1 nested scope entries — the claimed partition
equality fails. -/
theorem brief_partition_counterexample :
    ¬ ((brief [cex_resource]).map (List.map fun b =>
        (asset_list b "in_scope").length +
          (asset_list b "out_of_scope").length) =
      Except.ok [(nested_scopes cex_resource).length]) := by
  intro h
  have h2 : (Except.ok [0] : Except String (List Nat)) = Except.ok [1] := h
  simp at h2

/-- Claim C1 (amended): for a resource with K nested scope entries,
`brief` selects into `in_scope` exactly the entries whose
`eligible_for_submission` key is present and truthy, and into
`out_of_scope` exactly the entries whose key is present and falsy; an
entry without the key lands in neither list, so
`len(in_scope) + len(out_of_scope)` equals the number of entries
carrying the key (which is K only when every entry carries it). -/
theorem brief_partition_amended (scopes : List (List (String × JValue))) :
    brief [mk_scope_resource scopes] =
      Except.ok [JValue.obj [("handle", .str "unknown"),
        ("bounty", .num 0), ("active", .num 0),
        ("assets", .obj [
          ("in_scope", .arr ((scopes.filter elig_true).map asset_of_attrs)),
          ("out_of_scope",
            .arr ((scopes.filter elig_false).map asset_of_attrs))])]] ∧
    (scopes.filter elig_true).length + (scopes.filter elig_false).length =
      scopes.countP has_elig := by
  refine ⟨?_, elig_count scopes⟩
  rw [show brief [mk_scope_resource scopes] =
      Except.bind
        (Except.bind
          (comprehend eligible_in asset_entry (scopes.map mk_scope))
          (fun ins =>
            Except.bind
              (comprehend eligible_out asset_entry (scopes.map mk_scope))
              (fun outs =>
                Except.ok (JValue.obj [("handle", .str "unknown"),
                  ("bounty", .num 0), ("active", .num 0),
                  ("assets", .obj [("in_scope", .arr ins),
                    ("out_of_scope", .arr outs)])]))))
        (fun b => Except.ok [b])
    from rfl]
  rw [comprehend_in_spec, comprehend_out_spec]
  rfl

/-- The record `brief` builds for a resource that carries only an
attributes dict, expressed through the per-field spec functions. -/
theorem brief_one_attrs (attrs : List (String × JValue)) :
    brief_one (mk_attrs_resource attrs) =
      Except.ok (JValue.obj [("handle", handle_spec attrs),
        ("bounty", bounty_spec attrs), ("active", active_spec attrs),
        ("assets", JValue.obj [("in_scope", JValue.arr []),
          ("out_of_scope", JValue.arr [])])]) := by
  rw [show brief_one (mk_attrs_resource attrs) =
      Except.ok (JValue.obj [
        ("handle", lookupD attrs "handle" (.str "unknown")),
        ("bounty", if truthy (lookupD attrs "offers_bounties" (.bool false))
          then JValue.num 1 else JValue.num 0),
        ("active", if py_str_eq (lookupD attrs "submission_state" .null) "open"
          then JValue.num 1 else JValue.num 0),
        ("assets", JValue.obj [("in_scope", JValue.arr []),
          ("out_of_scope", JValue.arr [])])])
    from rfl]
  have hb : (if truthy (lookupD attrs "offers_bounties" (.bool false))
      then JValue.num 1 else JValue.num 0) = bounty_spec attrs := by
    unfold bounty_spec lookupD
    cases List.lookup "offers_bounties" attrs <;> simp [truthy]
  have ha : (if py_str_eq (lookupD attrs "submission_state" .null) "open"
      then JValue.num 1 else JValue.num 0) = active_spec attrs := by
    unfold active_spec lookupD
    cases h : List.lookup "submission_state" attrs with
    | none => simp [py_str_eq]
    | some v => cases v <;> simp [py_str_eq]
  rw [hb, ha]
  rfl

/-- Claim C5: `brief` silently skips non-dict entries and, preserving
input order, maps each dict entry to a record whose `handle` is
`attributes.handle` or `"unknown"` when missing, whose `bounty` is 1
exactly when `attributes.offers_bounties` is present and truthy (so a
truthy non-boolean such as `"yes"` yields 1) and 0 otherwise, and whose
`active` is 1 exactly when `attributes.submission_state` is the string
`"open"` and 0 otherwise. -/
theorem brief_field_mapping (attrs : List (String × JValue))
    (junk : JValue) (rs : List JValue) (hj : isObj junk = false) :
    brief (junk :: rs) = brief rs ∧
    brief (mk_attrs_resource attrs :: rs) =
      (brief rs).map (fun bs => JValue.obj [
        ("handle", handle_spec attrs), ("bounty", bounty_spec attrs),
        ("active", active_spec attrs),
        ("assets", JValue.obj [("in_scope", JValue.arr []),
          ("out_of_scope", JValue.arr [])])] :: bs) := by
  constructor
  · rw [show brief (junk :: rs) =
        Except.bind (Except.ok (isObj junk)) (fun c =>
          if c = true then
            Except.bind (brief_one junk) (fun b =>
              Except.bind (brief rs) (fun r => Except.ok (b :: r)))
          else brief rs)
      from rfl, hj]
    rfl
  · rw [show brief (mk_attrs_resource attrs :: rs) =
        Except.bind (brief_one (mk_attrs_resource attrs)) (fun b =>
          Except.bind (brief rs) (fun r => Except.ok (b :: r)))
      from rfl, brief_one_attrs]
    simp only [except_bind_ok]
    cases h : brief rs <;> rfl

/-- Witness for C5: a `None` entry is skipped, and attributes with the
truthy non-boolean `offers_bounties` value `"yes"` and an `"open"`
submission state yield `handle "h1"`, `bounty 1`, `active 1`. -/
theorem brief_field_mapping_witness :
    isObj JValue.null = false ∧
    (brief [JValue.null] = brief [] ∧
     brief [mk_attrs_resource yes_attrs] =
       Except.ok [JValue.obj [("handle", JValue.str "h1"),
         ("bounty", JValue.num 1), ("active", JValue.num 1),
         ("assets", JValue.obj [("in_scope", JValue.arr []),
           ("out_of_scope", JValue.arr [])])]]) :=
  ⟨rfl, brief_field_mapping yes_attrs JValue.null [] rfl⟩

/-- Each run of the pagination loop issues at most `budget + 1` further
requests. -/
theorem paginateLoop_log_length (server : Server) (budget : Nat) :
    ∀ (nu : JValue) (cp : Option Params) (pc : Nat) (res : List JValue)
      (log : List Request),
    ((paginateLoop server nu cp pc budget res log).1).length ≤
      log.length + (budget + 1) := by
  induction budget with
  | zero =>
    intro nu cp pc res log
    rw [paginateLoop]
    dsimp only
    repeat' split
    all_goals simp
  | succ b ih =>
    intro nu cp pc res log
    rw [paginateLoop]
    dsimp only
    repeat' split
    all_goals try (solve | simp)
    all_goals refine le_trans (ih _ _ _ _ _) ?_
    all_goals simp
    all_goals omega

/-- Shape of the request trace produced by the pagination loop: the
accumulated log is extended by a block of new requests whose first
element (if any) carries the loop's entry url and params and whose
later elements all carry `params = None`. -/
theorem paginateLoop_log_shape (server : Server) (budget : Nat) :
    ∀ (nu : JValue) (cp : Option Params) (pc : Nat) (res : List JValue)
      (log : List Request),
    ∃ fresh,
      (paginateLoop server nu cp pc budget res log).1 =
        log.reverse ++ fresh ∧
      (fresh = [] ∨ ∃ t, fresh = ⟨nu, cp⟩ :: t ∧ ∀ r ∈ t, r.params = none) := by
  induction budget with
  | zero =>
    intro nu cp pc res log
    rw [paginateLoop]
    dsimp only
    repeat' split
    all_goals first
      | (refine ⟨[], ?_, Or.inl rfl⟩; solve | simp)
      | (refine ⟨[⟨nu, cp⟩], ?_, Or.inr ⟨[], rfl, by simp⟩⟩; solve | simp)
  | succ b ih =>
    intro nu cp pc res log
    rw [paginateLoop]
    dsimp only
    repeat' split
    all_goals first
      | (refine ⟨[], ?_, Or.inl rfl⟩; solve | simp)
      | (refine ⟨[⟨nu, cp⟩], ?_, Or.inr ⟨[], rfl, by simp⟩⟩; solve | simp)
      | (rename_i x1 rj heq1 x2 nl heq2 htr
         obtain ⟨fresh2, heq3, hdisj⟩ :=
           ih nl none (pc + 1) (rj :: res) (⟨nu, cp⟩ :: log)
         refine ⟨⟨nu, cp⟩ :: fresh2, by rw [heq3]; simp,
           Or.inr ⟨fresh2, rfl, ?_⟩⟩
         intro r hr
         rcases hdisj with rfl | ⟨t2, ht2eq, ht2⟩
         · simp at hr
         · subst ht2eq
           rcases List.mem_cons.mp hr with rfl | hr2
           · rfl
           · exact ht2 r hr2)

/-- Behaviour of the pagination loop over a simulated response sequence
in which fetches `pc+1 .. N-1` succeed with pages carrying non-empty
string next links and fetch `N` fails: the loop collects exactly the
pages of the successful fetches, in order, and swallows the error. -/
theorem paginateLoop_partial_failure (server : Server) (body : Nat → JValue)
    (link : Nat → String) (N : Nat)
    (hsrv : ∀ i u p, 1 ≤ i → i < N → server i u p = .ok (body i))
    (hfail : ∀ u p, server N u p = .error "HttpError")
    (hlink : ∀ i, 1 ≤ i → i < N →
      extract_next (body i) = .ok (.str (link i)) ∧ link i ≠ "") :
    ∀ (budget pc : Nat) (s : String) (cp : Option Params)
      (res : List JValue) (log : List Request),
    pc + 1 ≤ N → N ≤ pc + 1 + budget → s ≠ "" →
    (paginateLoop server (.str s) cp pc budget res log).2 =
      .ok (res.reverse ++ (List.range (N - 1 - pc)).map fun k =>
        body (pc + 1 + k)) := by
  intro budget
  induction budget with
  | zero =>
    intro pc s cp res log hN1 hN2 hs
    have htr : truthy (JValue.str s) = true := by
      simp [truthy, bne_iff_ne, hs]
    have hce : server (pc + 1) (build_url base_url s) cp =
        .error "HttpError" := by
      rw [show pc + 1 = N from by omega]
      exact hfail _ _
    rw [paginateLoop]
    dsimp only
    simp only [htr, if_true, api_get, hce]
    simp [show N - 1 - pc = 0 from by omega]
  | succ b ih =>
    intro pc s cp res log hN1 hN2 hs
    have htr : truthy (JValue.str s) = true := by
      simp [truthy, bne_iff_ne, hs]
    by_cases hNe : pc + 1 = N
    · have hce : server (pc + 1) (build_url base_url s) cp =
          .error "HttpError" := by
        rw [hNe]
        exact hfail _ _
      rw [paginateLoop]
      dsimp only
      simp only [htr, if_true, api_get, hce]
      simp [show N - 1 - pc = 0 from by omega]
    · have hlt : pc + 1 < N := by omega
      have hc1 : server (pc + 1) (build_url base_url s) cp =
          .ok (body (pc + 1)) := hsrv _ _ _ (by omega) hlt
      obtain ⟨hl1, hl2⟩ := hlink (pc + 1) (by omega) hlt
      have htr2 : truthy (JValue.str (link (pc + 1))) = true := by
        simp [truthy, bne_iff_ne, hl2]
      have hrw : (List.range (N - 1 - pc)).map (fun k => body (pc + 1 + k)) =
          body (pc + 1) ::
            (List.range (N - 1 - (pc + 1))).map (fun k =>
              body (pc + 1 + 1 + k)) := by
        rw [show N - 1 - pc = (N - 1 - (pc + 1)) + 1 from by omega,
          List.range_succ_eq_map]
        simp only [List.map_cons, List.map_map]
        congr 1
        congr 1
        funext k
        show body (pc + 1 + (k + 1)) = body (pc + 1 + 1 + k)
        congr 1
        omega
      rw [paginateLoop]
      dsimp only
      simp only [htr, if_true, api_get, hc1, hl1, htr2]
      rw [ih (pc + 1) (link (pc + 1)) none (body (pc + 1) :: res)
        (⟨JValue.str s, cp⟩ :: log) (by omega) (by omega) hl2]
      rw [hrw]
      simp

/-- When every page's `data` field (if present) is an array, the
`extend` loop of `program_info` concatenates those arrays in page
order onto the accumulator. -/
theorem extend_data_spec :
    ∀ (pages : List JValue) (acc : List JValue),
    (∀ p ∈ pages, page_data_ok p) →
    extend_data pages acc = .ok (acc ++ (pages.map page_data).flatten) := by
  intro pages
  induction pages with
  | nil => intro acc h; simp [extend_data]
  | cons p rest ih =>
    intro acc h
    have hp : page_data_ok p := h p (List.mem_cons_self p rest)
    have hrest : ∀ q ∈ rest, page_data_ok q :=
      fun q hq => h q (List.mem_cons_of_mem p hq)
    have hskip : ∀ (q : JValue), page_data q = [] →
        extend_data (q :: rest) acc = extend_data rest acc →
        extend_data (q :: rest) acc =
          .ok (acc ++ ((q :: rest).map page_data).flatten) := by
      intro q h1 h2
      rw [h2, ih acc hrest]
      simp [h1]
    cases p with
    | null => exact hskip _ rfl rfl
    | bool b => exact hskip _ rfl rfl
    | num n => exact hskip _ rfl rfl
    | str s => exact hskip _ rfl rfl
    | arr xs => exact hskip _ rfl rfl
    | obj fs =>
      cases hl : List.lookup "data" fs with
      | none =>
        apply hskip
        · rw [show page_data (JValue.obj fs) =
              (match List.lookup "data" fs with
               | some (JValue.arr ys) => ys
               | _ => ([] : List JValue)) from rfl, hl]
        · rw [show extend_data (JValue.obj fs :: rest) acc =
              (match List.lookup "data" fs with
               | some d => Except.bind (py_iter d)
                   (fun items => extend_data rest (acc ++ items))
               | none => extend_data rest acc) from rfl, hl]
      | some d =>
        obtain ⟨xs, rfl⟩ : ∃ xs, d = JValue.arr xs := by
          have h2 := hp
          rw [show page_data_ok (JValue.obj fs) =
              (match List.lookup "data" fs with
               | some d => ∃ xs, d = JValue.arr xs
               | none => True) from rfl, hl] at h2
          exact h2
        rw [show extend_data (JValue.obj fs :: rest) acc =
            (match List.lookup "data" fs with
             | some d => Except.bind (py_iter d)
                 (fun items => extend_data rest (acc ++ items))
             | none => extend_data rest acc) from rfl, hl]
        dsimp only
        rw [show py_iter (JValue.arr xs) = Except.ok xs from rfl,
          except_bind_ok]
        rw [ih (acc ++ xs) hrest]
        have hpd : page_data (JValue.obj fs) = xs := by
          rw [show page_data (JValue.obj fs) =
              (match List.lookup "data" fs with
               | some (JValue.arr ys) => ys
               | _ => ([] : List JValue)) from rfl, hl]
        simp [hpd, List.append_assoc]

/-- Claim C2: for a simulated response sequence in which fetches
1..N-1 succeed (each page carrying a next link) and fetch N fails with
an error status, `paginate` catches the error, does not propagate it,
and returns exactly the first N-1 successfully fetched pages in fetch
order. -/
theorem paginate_partial_failure (server : Server) (body : Nat → JValue)
    (link : Nat → String) (N : Nat) (endpoint : String)
    (params : Option Params) (max_pages : Int)
    (hsrv : ∀ i u p, 1 ≤ i → i < N → server i u p = .ok (body i))
    (hfail : ∀ u p, server N u p = .error "HttpError")
    (hlink : ∀ i, 1 ≤ i → i < N →
      extract_next (body i) = .ok (.str (link i)) ∧ link i ≠ "")
    (hN : 1 ≤ N) (hcap : (N : Int) ≤ max_pages) (hep : endpoint ≠ "") :
    (paginate server endpoint params max_pages).2 =
      .ok ((List.range (N - 1)).map fun k => body (k + 1)) := by
  unfold paginate
  have hfe : (fun k => body (0 + 1 + k)) = fun k => body (k + 1) := by
    funext k
    congr 1
    omega
  have h := paginateLoop_partial_failure server body link N hsrv hfail hlink
    ((max_pages - 1).toNat) 0 endpoint (effective_params params) [] []
    (by omega) (by omega) hep
  rw [h]
  simp [hfe]

/-- Witness for C2: with a server answering call 1 with a page carrying
a next link and failing call 2, `paginate` returns just that first
page (and no error). -/
theorem paginate_partial_failure_witness :
    (paginate fail_server "/v1/hackers/programs/demo/structured_scopes"
      none 500).2 = Except.ok [sample_page1] :=
  paginate_partial_failure fail_server (fun _ => sample_page1)
    (fun _ => "/v1/x?page=2") 2
    "/v1/hackers/programs/demo/structured_scopes" none 500
    (by
      intro i u p h1 h2
      have h3 : i = 1 := by omega
      subst h3
      rfl)
    (fun u p => rfl)
    (by
      intro i h1 h2
      have h3 : i = 1 := by omega
      subst h3
      exact ⟨rfl, by decide⟩)
    (by omega) (by decide) (by decide)

/-- Claim C3: `paginate` always terminates (it is a total function of
the oracle) and issues at most `max_pages` fetch requests, whatever
response sequence the server supplies — even one offering a next link
on every page. -/
theorem paginate_fetch_bound (server : Server) (endpoint : String)
    (params : Option Params) (max_pages : Int) (h : 1 ≤ max_pages) :
    ((paginate server endpoint params max_pages).1).length ≤
      max_pages.toNat := by
  unfold paginate
  have h2 := paginateLoop_log_length server ((max_pages - 1).toNat)
    (.str endpoint) (effective_params params) 0 [] []
  simp only [List.length_nil] at h2
  omega

/-- Witness for C3: against a server that always answers successfully,
the default run issues at most 500 requests. -/
theorem paginate_fetch_bound_witness :
    (1 : Int) ≤ 500 ∧
    ((paginate plain_server "/v1/x" none 500).1).length ≤
      (500 : Int).toNat :=
  ⟨by decide, paginate_fetch_bound plain_server "/v1/x" none 500 (by decide)⟩

/-- Claim C4: `program_info` paginates the program's structured-scope
endpoint, concatenates the `data` array of every successfully fetched
page in order (skipping pages without a `data` field), and wraps the
result as a relationship block. -/
theorem program_info_flattens (server : Server) (scope : String)
    (pages : List JValue)
    (hp : (paginate server
      ("/v1/hackers/programs/" ++ scope ++ "/structured_scopes")
      none 500).2 = .ok pages)
    (hs : ∀ p ∈ pages, page_data_ok p) :
    program_info server scope =
      .ok (.obj [("relationships", .obj [("structured_scopes",
        .obj [("data", .arr ((pages.map page_data).flatten))])])]) := by
  rw [show program_info server scope = Except.bind
      ((paginate server
        ("/v1/hackers/programs/" ++ scope ++ "/structured_scopes")
        none 500).2)
      (fun pages => Except.bind (extend_data pages [])
        (fun data => Except.ok (JValue.obj [("relationships",
          JValue.obj [("structured_scopes",
            JValue.obj [("data", JValue.arr data)])])])))
    from rfl, hp]
  simp only [except_bind_ok]
  rw [extend_data_spec pages [] hs]
  simp only [except_bind_ok]
  simp

/-- Witness for C4: the spec's end-to-end example — page 1 has data
[R1] and a next link, page 2 has data [R2] and no next link — flattens
to [R1, R2] inside the relationship wrapper. -/
theorem program_info_flattens_witness :
    (∀ p ∈ [sample_page1, sample_page2], page_data_ok p) ∧
    program_info mock_server "demo" =
      Except.ok (JValue.obj [("relationships", JValue.obj [
        ("structured_scopes", JValue.obj [("data",
          JValue.arr [JValue.str "R1", JValue.str "R2"])])])]) := by
  have hshape : ∀ p ∈ [sample_page1, sample_page2], page_data_ok p := by
    intro p hp
    simp only [List.mem_cons, List.not_mem_nil, or_false] at hp
    rcases hp with rfl | rfl
    · exact ⟨[JValue.str "R1"], rfl⟩
    · exact ⟨[JValue.str "R2"], rfl⟩
  exact ⟨hshape, program_info_flattens mock_server "demo"
    [sample_page1, sample_page2] rfl hshape⟩

/-- Claim C6: for a path that carries no scheme and no leading slash,
the leading-slash and slash-less forms resolve to the identical
absolute URL under the base, and an input that is already an absolute
URL is used unchanged. -/
theorem build_url_normalization (p u : String)
    (h1 : startswith p "http://" = false)
    (h2 : startswith p "https://" = false)
    (h3 : startswith p "/" = false)
    (h4 : startswith u "http://" = true ∨ startswith u "https://" = true) :
    build_url base_url ("/" ++ p) = build_url base_url p ∧
    build_url base_url u = u := by
  constructor
  · have hd : ("/" ++ p).data = '/' :: p.data := by
      cases p
      rfl
    have hh1 : startswith ("/" ++ p) "http://" = false := by
      unfold startswith
      rw [hd]
      simp [List.isPrefixOf]
    have hh2 : startswith ("/" ++ p) "https://" = false := by
      unfold startswith
      rw [hd]
      simp [List.isPrefixOf]
    have hh3 : startswith ("/" ++ p) "/" = true := by
      unfold startswith
      rw [hd]
      simp [List.isPrefixOf]
    unfold build_url
    simp only [h1, h2, h3, hh1, hh2, hh3, Bool.or_self, Bool.or_false,
      if_true, if_false]
    simp only [Bool.false_eq_true, if_false, if_true]
    apply String.ext
    simp [String.data_append]
  · unfold build_url
    rcases h4 with h | h <;> simp [h]

/-- Witness for C6: `v1/foo` and `/v1/foo` resolve to the same absolute
URL, and an absolute URL passes through unchanged. -/
theorem build_url_normalization_witness :
    build_url base_url ("/" ++ "v1/foo") = build_url base_url "v1/foo" ∧
    build_url base_url "https://api.hackerone.com/v1/x" =
      "https://api.hackerone.com/v1/x" :=
  build_url_normalization "v1/foo" "https://api.hackerone.com/v1/x"
    (by decide) (by decide) (by decide) (Or.inr (by decide))

/-- Claim C7: in every pagination run the first issued request carries
the caller's initial params after default substitution (so the
page-size hint 100 when none are given), and every later request in
the same run is issued with no params, the next link serving as the
full request URL. -/
theorem paginate_params_discipline (server : Server) (endpoint : String)
    (params : Option Params) (max_pages : Int) :
    (∀ r ∈ ((paginate server endpoint params max_pages).1).tail,
      r.params = none) ∧
    (∀ r, ((paginate server endpoint params max_pages).1).head? = some r →
      r.url = JValue.str endpoint ∧ r.params = effective_params params) := by
  obtain ⟨fresh, heq, hstruct⟩ := paginateLoop_log_shape server
    ((max_pages - 1).toNat) (.str endpoint) (effective_params params) 0 [] []
  unfold paginate
  simp only [List.reverse_nil, List.nil_append] at heq
  rw [heq]
  rcases hstruct with rfl | ⟨t, rfl, ht⟩
  · exact ⟨by simp, by simp⟩
  · constructor
    · simpa using ht
    · intro r hr
      simp only [List.head?_cons, Option.some.injEq] at hr
      subst hr
      exact ⟨rfl, rfl⟩

/-- Witness for C7: in the two-request mock run, the first request
carries the default page-size params and the second carries none. -/
theorem paginate_params_discipline_witness :
    (⟨JValue.str "/v1/x?page=2", none⟩ : Request).params = none ∧
    (⟨JValue.str "/v1/x", some default_params⟩ : Request).params =
      effective_params none :=
  ⟨(paginate_params_discipline mock_server "/v1/x" none 500).1
      ⟨JValue.str "/v1/x?page=2", none⟩ (List.Mem.head _),
    ((paginate_params_discipline mock_server "/v1/x" none 500).2
      ⟨JValue.str "/v1/x", some default_params⟩ rfl).2⟩

/-- Claim C8: with `max_pages <= 0` and a first fetch that succeeds,
`paginate` still issues that one fetch and returns the one-page list:
the cap is only checked after a page has been fetched and appended, so
it can never produce an empty result from a succeeding endpoint. -/
theorem paginate_cap_still_fetches_once (server : Server)
    (endpoint : String) (params : Option Params) (max_pages : Int)
    (body : JValue) (hmp : max_pages ≤ 0) (hep : endpoint ≠ "")
    (hsrv : server 1 (build_url base_url endpoint)
      (effective_params params) = .ok body) :
    (paginate server endpoint params max_pages).2 = .ok [body] ∧
    ((paginate server endpoint params max_pages).1).length = 1 := by
  have htr : truthy (JValue.str endpoint) = true := by
    simp [truthy, bne_iff_ne, hep]
  unfold paginate
  rw [show (max_pages - 1).toNat = 0 from by omega]
  rw [paginateLoop]
  dsimp only
  simp only [htr, if_true, api_get, hsrv]
  simp

/-- Witness for C8: with `max_pages = 0` against an always-succeeding
server, one page is fetched and returned. -/
theorem paginate_cap_still_fetches_once_witness :
    (0 : Int) ≤ 0 ∧ "/v1/x" ≠ "" ∧
    ((paginate plain_server "/v1/x" none 0).2 = Except.ok [JValue.obj []] ∧
     ((paginate plain_server "/v1/x" none 0).1).length = 1) :=
  ⟨by decide, by decide,
    paginate_cap_still_fetches_once plain_server "/v1/x" none 0
      (JValue.obj []) (by decide) (by decide) rfl⟩

/-- Claim C9: an explicitly empty params dict is falsy, so it is
replaced by the same default page-size hint as passing no params at
all: the two calls are indistinguishable. -/
theorem paginate_empty_params_eq_none (server : Server) (endpoint : String)
    (max_pages : Int) :
    paginate server endpoint (some []) max_pages =
      paginate server endpoint none max_pages := rfl

/-- Claim C10: when a fetch succeeds but the parsed body is not a JSON
object (here: under the default-like cap `2 ≤ max_pages` so the cap
break does not intervene), the next-link extraction outside the
protected block raises, and the error propagates to `paginate`'s
caller instead of partial results being returned. -/
theorem paginate_nonobject_page_error (server : Server) (endpoint : String)
    (params : Option Params) (max_pages : Int) (v : JValue)
    (hmp : 2 ≤ max_pages) (hep : endpoint ≠ "") (hv : isObj v = false)
    (hsrv : server 1 (build_url base_url endpoint)
      (effective_params params) = .ok v) :
    ∃ e, (paginate server endpoint params max_pages).2 = .error e := by
  have htr : truthy (JValue.str endpoint) = true := by
    simp [truthy, bne_iff_ne, hep]
  have hex : extract_next v = .error "AttributeError" := by
    cases v with
    | obj fs => simp [isObj] at hv
    | null => rfl
    | bool b => rfl
    | num n => rfl
    | str s => rfl
    | arr xs => rfl
  obtain ⟨b, hb⟩ : ∃ b, (max_pages - 1).toNat = b + 1 :=
    ⟨(max_pages - 2).toNat, by omega⟩
  unfold paginate
  rw [hb, paginateLoop]
  dsimp only
  simp only [htr, if_true, api_get, hsrv, hex]
  exact ⟨"AttributeError", rfl⟩

/-- Witness for C10: a server answering with a JSON array body makes
`paginate` raise instead of returning pages. -/
theorem paginate_nonobject_page_error_witness :
    (2 : Int) ≤ 500 ∧
    ∃ e, (paginate arr_server "/v1/x" none 500).2 = Except.error e :=
  ⟨by decide, paginate_nonobject_page_error arr_server "/v1/x" none 500
    (JValue.arr []) (by decide) (by decide) rfl rfl⟩
